import Mathlib

/-!
Shallow embedding of the `beef` stack-and-register virtual machine
(`src/main.rs`) and verification of its specification.

Modelling conventions, all taken from the Rust source:

* `i64` values are modelled as `Int`.  Where the Rust semantics of `i64`
  matters it is made explicit:
  - `a + b`, `a - b`, `a * b` on `i64` wrap two's-complement (the defined
    behaviour with overflow checks disabled); this is `wrapI64` below, an
    explicit reduction modulo `2^64 = 18446744073709551616` re-centred on
    `[-2^63, 2^63)`.
  - `a / b` on `i64` truncates toward zero (`Int.tdiv`) and panics when
    `a = i64::MIN` and `b = -1` (this check is emitted by rustc in every
    build profile).
  - `x as usize` reinterprets the 64-bit pattern as unsigned: `toUsize`
    below, i.e. `x` reduced modulo `2^64` into `[0, 2^64)`.
* `Vec<i64>` used as a LIFO stack is a `List Int` whose head is the top.
* `HashMap<usize, i64>` is an association list; `insert` conses (the
  lookup finds the most recent binding, which models overwrite), `get`
  with `unwrap_or(&0)` is `memGet`.
* The register file `[i64; 11]` is a `List Int` of length 11
  (`Context.new` builds `List.replicate 11 0`); the source's bounds check
  `reg_idx >= self.registers.len()` is kept literally.
* Fallible execution returns a `StepResult`: `ok` with the new context,
  `err` with the context as already mutated when the error fired (the
  Rust code mutates `self` in place, so pops that happened before an
  early `return Err` persist), or `panic` for a Rust panic (out-of-bounds
  `Vec` indexing, `i64` division overflow).
* `Context::run` is `runFuel`, fuel-indexed; `Outcome.outOfFuel` is a
  model artefact that never occurs on the concrete runs proved below.
  The `debug` printing of the source is omitted: it does not touch the
  machine state.
-/

namespace Beef

/-- The closed opcode tag set of `src/main.rs` (`enum OpCode`). -/
inductive OpCode where
  | Push
  | Pop
  | Add
  | Sub
  | Mul
  | Div
  | LoadReg
  | StoreReg
  | Load
  | Store
  | Jump
  | JumpEq
  | JumpGt
  | JumpLt
  | Call
  | Return
  | Exit
deriving DecidableEq, Repr

/-- One instruction: opcode plus ordered `i64` operand list (`struct Instruction`). -/
structure Instruction where
  opcode : OpCode
  operands : List Int
deriving DecidableEq, Repr

/-- The execution context (`struct Context`): program counter, operand stack
(head = top), call stack of return addresses, register file, sparse memory,
and the loaded program. -/
structure Context where
  pc : Nat
  stack : List Int
  call_stack : List Nat
  registers : List Int
  memory : List (Nat × Int)
  program : List Instruction
deriving DecidableEq, Repr

/-- `Context::new`: pc 0, empty stacks and memory, 11 zeroed registers. -/
def Context.new (program : List Instruction) : Context :=
  { pc := 0, stack := [], call_stack := [], registers := List.replicate 11 0,
    memory := [], program := program }

/-- The `i64` most negative value, `-2^63`. -/
def i64Min : Int := -9223372036854775808

/-- Two's-complement wrap of an integer into the `i64` range
`[-2^63, 2^63)`: reduction modulo `2^64` re-centred.  This is the result of
Rust `i64` `+`, `-`, `*` with overflow checks disabled. -/
def wrapI64 (x : Int) : Int :=
  (x + 9223372036854775808) % 18446744073709551616 - 9223372036854775808

/-- Rust `x as usize` on an `i64`: the 64-bit pattern read as unsigned,
i.e. `x` modulo `2^64` in `[0, 2^64)`. -/
def toUsize (x : Int) : Nat :=
  (x % 18446744073709551616).toNat

/-- `self.memory.get(&addr).unwrap_or(&0)`: first binding of `addr`, else 0. -/
def memGet (m : List (Nat × Int)) (addr : Nat) : Int :=
  (m.lookup addr).getD 0

/-- The closed error taxonomy.  Each constructor corresponds to one family of
error strings in `src/main.rs`:
`missingOperand op` = "... requires an ... operand",
`stackUnderflow op` = the per-op "Stack underflow" strings,
`divisionByZero` = "Division by zero",
`invalidRegisterIndex` = "Invalid register index: {}",
`jumpTargetOutOfBounds` = "Jump target out of bounds: {}",
`functionAddrOutOfBounds` = "Function address out of bounds: {}",
`callStackUnderflow` = "Call stack underflow (unmatched return)",
`programTerminatedWithoutExit` = "Program terminated without explicit exit". -/
inductive VMError where
  | missingOperand (op : OpCode)
  | stackUnderflow (op : OpCode)
  | divisionByZero
  | invalidRegisterIndex (idx : Nat)
  | jumpTargetOutOfBounds (target : Nat)
  | functionAddrOutOfBounds (addr : Nat)
  | callStackUnderflow
  | programTerminatedWithoutExit
deriving DecidableEq, Repr

/-- Result of executing one instruction.  `err` carries the context as
mutated at the moment the error fired (Rust mutates `self` in place).
`panic` models a Rust panic. -/
inductive StepResult where
  | ok (c : Context)
  | err (c : Context) (e : VMError)
  | panic
deriving DecidableEq, Repr

/-- `Context::execute_ix`, arm by arm from `src/main.rs` lines 89-279. -/
def execute_ix (c : Context) (instruction : Instruction) : StepResult :=
  match instruction.opcode with
  | .Push =>
    if instruction.operands.isEmpty then
      .err c (.missingOperand .Push)
    else
      .ok { c with stack := instruction.operands.headD 0 :: c.stack, pc := c.pc + 1 }
  | .Pop =>
    match c.stack with
    | [] => .err c (.stackUnderflow .Pop)
    | _ :: rest => .ok { c with stack := rest, pc := c.pc + 1 }
  | .Add =>
    match c.stack with
    | [] => .err c (.stackUnderflow .Add)
    | [_] => .err { c with stack := [] } (.stackUnderflow .Add)
    | b :: a :: rest => .ok { c with stack := wrapI64 (a + b) :: rest, pc := c.pc + 1 }
  | .Sub =>
    match c.stack with
    | [] => .err c (.stackUnderflow .Sub)
    | [_] => .err { c with stack := [] } (.stackUnderflow .Sub)
    | b :: a :: rest => .ok { c with stack := wrapI64 (a - b) :: rest, pc := c.pc + 1 }
  | .Mul =>
    match c.stack with
    | [] => .err c (.stackUnderflow .Mul)
    | [_] => .err { c with stack := [] } (.stackUnderflow .Mul)
    | b :: a :: rest => .ok { c with stack := wrapI64 (a * b) :: rest, pc := c.pc + 1 }
  | .Div =>
    match c.stack with
    | [] => .err c (.stackUnderflow .Div)
    | b :: rest =>
      if b = 0 then
        .err { c with stack := rest } .divisionByZero
      else
        match rest with
        | [] => .err { c with stack := [] } (.stackUnderflow .Div)
        | a :: rest2 =>
          if a = i64Min ∧ b = -1 then
            .panic
          else
            .ok { c with stack := Int.tdiv a b :: rest2, pc := c.pc + 1 }
  | .LoadReg =>
    if instruction.operands.isEmpty then
      .err c (.missingOperand .LoadReg)
    else
      let reg_idx := toUsize (instruction.operands.headD 0)
      if c.registers.length ≤ reg_idx then
        .err c (.invalidRegisterIndex reg_idx)
      else
        .ok { c with stack := c.registers.getD reg_idx 0 :: c.stack, pc := c.pc + 1 }
  | .StoreReg =>
    if instruction.operands.isEmpty then
      .err c (.missingOperand .StoreReg)
    else
      let reg_idx := toUsize (instruction.operands.headD 0)
      if c.registers.length ≤ reg_idx then
        .err c (.invalidRegisterIndex reg_idx)
      else
        match c.stack with
        | [] => .err c (.stackUnderflow .StoreReg)
        | v :: rest =>
          .ok { c with stack := rest, registers := c.registers.set reg_idx v, pc := c.pc + 1 }
  | .Jump =>
    if instruction.operands.isEmpty then
      .err c (.missingOperand .Jump)
    else
      let target := toUsize (instruction.operands.headD 0)
      if c.program.length ≤ target then
        .err c (.jumpTargetOutOfBounds target)
      else
        .ok { c with pc := target }
  | .JumpEq =>
    if instruction.operands.isEmpty then
      .err c (.missingOperand .JumpEq)
    else
      let target := toUsize (instruction.operands.headD 0)
      if c.program.length ≤ target then
        .err c (.jumpTargetOutOfBounds target)
      else
        match c.stack with
        | [] => .err c (.stackUnderflow .JumpEq)
        | [_] => .err { c with stack := [] } (.stackUnderflow .JumpEq)
        | b :: a :: rest =>
          if a = b then .ok { c with stack := rest, pc := target }
          else .ok { c with stack := rest, pc := c.pc + 1 }
  | .JumpGt =>
    if instruction.operands.isEmpty then
      .err c (.missingOperand .JumpGt)
    else
      let target := toUsize (instruction.operands.headD 0)
      if c.program.length ≤ target then
        .err c (.jumpTargetOutOfBounds target)
      else
        match c.stack with
        | [] => .err c (.stackUnderflow .JumpGt)
        | [_] => .err { c with stack := [] } (.stackUnderflow .JumpGt)
        | b :: a :: rest =>
          if a > b then .ok { c with stack := rest, pc := target }
          else .ok { c with stack := rest, pc := c.pc + 1 }
  | .JumpLt =>
    if instruction.operands.isEmpty then
      .err c (.missingOperand .JumpLt)
    else
      let target := toUsize (instruction.operands.headD 0)
      if c.program.length ≤ target then
        .err c (.jumpTargetOutOfBounds target)
      else
        match c.stack with
        | [] => .err c (.stackUnderflow .JumpLt)
        | [_] => .err { c with stack := [] } (.stackUnderflow .JumpLt)
        | b :: a :: rest =>
          if a < b then .ok { c with stack := rest, pc := target }
          else .ok { c with stack := rest, pc := c.pc + 1 }
  | .Call =>
    if instruction.operands.isEmpty then
      .err c (.missingOperand .Call)
    else
      let func_addr := toUsize (instruction.operands.headD 0)
      if c.program.length < func_addr then
        .err c (.functionAddrOutOfBounds func_addr)
      else
        .ok { c with call_stack := (c.pc + 1) :: c.call_stack, pc := func_addr }
  | .Return =>
    match c.call_stack with
    | [] => .err c .callStackUnderflow
    | return_addr :: rest => .ok { c with call_stack := rest, pc := return_addr }
  | .Load =>
    if instruction.operands.isEmpty then
      .err c (.missingOperand .Load)
    else
      let addr := toUsize (instruction.operands.headD 0)
      .ok { c with stack := memGet c.memory addr :: c.stack, pc := c.pc + 1 }
  | .Store =>
    if instruction.operands.isEmpty then
      .err c (.missingOperand .Store)
    else
      let addr := toUsize (instruction.operands.headD 0)
      match c.stack with
      | [] => .err c (.stackUnderflow .Store)
      | v :: rest =>
        .ok { c with stack := rest, memory := (addr, v) :: c.memory, pc := c.pc + 1 }
  | .Exit => .ok c

/-- Outcome of `Context::run`: `Ok(i64)`, `Err(..)`, a Rust panic, or the
fuel running out (a model artefact only). -/
inductive Outcome where
  | ok (v : Int)
  | err (e : VMError)
  | panic
  | outOfFuel
deriving DecidableEq, Repr

/-- `Context::run` (src/main.rs lines 61-87), fuel-indexed.  Faithful to the
source: the loop body ends with `matches!(self.program[self.pc].opcode,
OpCode::Exit)`, an indexing of `program` at the freshly updated `pc` — when
that `pc` equals the program length the `Vec` indexing panics. -/
def runFuel : Nat → Context → Outcome
  | 0, _ => .outOfFuel
  | fuel + 1, c =>
    if h : c.pc < c.program.length then
      match execute_ix c (c.program.get ⟨c.pc, h⟩) with
      | .err _ e => .err e
      | .panic => .panic
      | .ok c' =>
        if h2 : c'.pc < c'.program.length then
          if (c'.program.get ⟨c'.pc, h2⟩).opcode = OpCode.Exit then
            .ok (c'.registers.getD 0 0)
          else
            runFuel fuel c'
        else
          .panic
    else
      .err .programTerminatedWithoutExit

/-- Iterated `execute_ix` over a straight-line instruction sequence,
stopping at the first error or panic.  Pure proof convenience for stating
the push/store/load round-trip properties. -/
def execSeq (c : Context) : List Instruction → StepResult
  | [] => .ok c
  | i :: is =>
    match execute_ix c i with
    | .ok c' => execSeq c' is
    | r => r

/-- The hardcoded factorial-of-5 program of `main` (src/main.rs lines 284-316). -/
def factorialProgram : List Instruction :=
  [ ⟨.Push, [5]⟩,
    ⟨.StoreReg, [1]⟩,
    ⟨.Push, [1]⟩,
    ⟨.StoreReg, [0]⟩,
    ⟨.LoadReg, [1]⟩,
    ⟨.Push, [1]⟩,
    ⟨.JumpEq, [16]⟩,
    ⟨.LoadReg, [0]⟩,
    ⟨.LoadReg, [1]⟩,
    ⟨.Mul, []⟩,
    ⟨.StoreReg, [0]⟩,
    ⟨.LoadReg, [1]⟩,
    ⟨.Push, [1]⟩,
    ⟨.Sub, []⟩,
    ⟨.StoreReg, [1]⟩,
    ⟨.Jump, [4]⟩,
    ⟨.Exit, []⟩ ]

/-- A one-instruction program with no `Exit`: `[Push 1]`. -/
def noExitProgram : List Instruction := [⟨.Push, [1]⟩]

/-- A context about to execute `Div` with `a = i64::MIN`, `b = -1` on the
stack (top = `-1`). -/
def divOverflowCtx : Context :=
  { pc := 0, stack := [-1, -9223372036854775808], call_stack := [],
    registers := List.replicate 11 0, memory := [],
    program := [⟨.Div, []⟩] }

/-! ## Helper lemmas about the numeric casts -/

theorem toUsize_of_nonneg {t : Int} (h1 : 0 ≤ t) (h2 : t < 18446744073709551616) :
    toUsize t = t.toNat := by
  unfold toUsize; omega

theorem toUsize_ge_of_neg {t : Int} (h1 : -9223372036854775808 ≤ t) (h2 : t < 0) :
    9223372036854775808 ≤ toUsize t := by
  unfold toUsize; omega

/-! ## Claim theorems -/

/-- Claim C10: every handler reads only `operands[0]`; an instruction whose
operand list carries extra entries behaves exactly like the same opcode with
only the first operand. -/
theorem extra_operands_ignored (c : Context) (op : OpCode) (x : Int) (rest : List Int) :
    execute_ix c ⟨op, x :: rest⟩ = execute_ix c ⟨op, [x]⟩ := by
  cases op <;> rfl

/-- Claim C5: the hardcoded factorial-of-5 program of `main` (counter in
register 1 starting at 5, accumulator in register 0 starting at 1, loop-exit
branch to index 16 = the Exit instruction, loop-back Jump to index 4), run
from a fresh context, succeeds with exactly 120.  The run takes 55 loop
iterations of the dispatch loop; fuel 100 is ample. -/
theorem factorial_program_yields_120 :
    runFuel 100 (Context.new factorialProgram) = .ok 120 := by
  decide

/-- Claim C1 (refuted by the code): when `pc` reaches the program length
without `Exit` having executed, `run` does NOT return the "terminated
without explicit exit" error — the loop body's
`matches!(self.program[self.pc].opcode, OpCode::Exit)` indexes the program
at `pc = N` first and panics.  On the one-instruction program `[Push 1]`
the run panics; the error return on line 86 is reachable only when the
program is empty, where `pc` starts at `N` and never advances. -/
theorem run_past_end_panics_not_err :
    runFuel 10 (Context.new noExitProgram) = .panic ∧
    runFuel 1 (Context.new []) = .err .programTerminatedWithoutExit := by
  constructor <;> decide

/-- Claim C4, counterexample: with `a = i64::MIN` and `b = -1` on the stack
(`b` on top, both nonzero), `Div` does not push the truncated quotient
`2^63` (unrepresentable in `i64`) — the Rust `/` overflow check panics. -/
theorem div_min_by_neg_one_panics :
    execute_ix divOverflowCtx ⟨.Div, []⟩ = .panic := by
  decide

/-- Claim C4, amended: `Div` pops `b` first and checks `b = 0` before
popping `a`, so `b = 0` always fails with DivisionByZero regardless of `a`
(even when `a` is absent), mutating the stack only by the pop of `b`; when
`b ≠ 0` and not (`a = i64::MIN` and `b = -1`), it pushes `a` tdiv `b`
(truncation toward zero) and advances `pc` by 1; at `a = i64::MIN`,
`b = -1` the division overflows `i64` and the code panics. -/
theorem div_semantics_amended (c : Context) (a b : Int) (rest : List Int) :
    (c.stack = b :: a :: rest → b ≠ 0 → ¬(a = i64Min ∧ b = -1) →
      execute_ix c ⟨.Div, []⟩ =
        .ok { c with stack := Int.tdiv a b :: rest, pc := c.pc + 1 }) ∧
    (c.stack = b :: a :: rest → b ≠ 0 → a = i64Min → b = -1 →
      execute_ix c ⟨.Div, []⟩ = .panic) ∧
    (∀ rest2, c.stack = 0 :: rest2 →
      execute_ix c ⟨.Div, []⟩ = .err { c with stack := rest2 } .divisionByZero) := by
  refine ⟨?_, ?_, ?_⟩
  · intro h hb hmin
    simp [execute_ix, h, hb, hmin]
  · intro h hb ha hb1
    simp [execute_ix, h, hb, ha, hb1]
  · intro rest2 h
    simp [execute_ix, h]

/-- Witness for `div_semantics_amended` at a concrete input: stack `[2, -7]`
(top `2`), so `a = -7`, `b = 2`, quotient truncates toward zero to `-3`. -/
theorem div_semantics_amended_witness :
    execute_ix { pc := 0, stack := [2, -7], call_stack := [], registers := [],
                 memory := [], program := [] } ⟨.Div, []⟩ =
      .ok { pc := 1, stack := [-3], call_stack := [], registers := [],
            memory := [], program := [] } := by
  have h := div_semantics_amended
    { pc := 0, stack := [2, -7], call_stack := [], registers := [], memory := [], program := [] }
    (-7) 2 []
  exact h.1 rfl (by decide) (by decide)

/-- Claim C2: `StoreReg` checks the register bound strictly before popping:
with an operand whose `usize` image is outside `0..10` (in particular every
`t ≥ 11` and, via the wrapping cast, every negative `t`) the step fails with
InvalidRegisterIndex and returns the context completely unchanged — no pop
happened; the pop and store occur only when the index is valid. -/
theorem storeReg_bounds_checked_before_pop (c : Context) (t : Int)
    (hlen : c.registers.length = 11) :
    (11 ≤ toUsize t →
      execute_ix c ⟨.StoreReg, [t]⟩ = .err c (.invalidRegisterIndex (toUsize t))) ∧
    (11 ≤ t → t < 9223372036854775808 → 11 ≤ toUsize t) ∧
    (-9223372036854775808 ≤ t → t < 0 → 11 ≤ toUsize t) ∧
    (toUsize t < 11 → ∀ v rest, c.stack = v :: rest →
      execute_ix c ⟨.StoreReg, [t]⟩ =
        .ok { c with stack := rest, registers := c.registers.set (toUsize t) v,
                     pc := c.pc + 1 }) ∧
    (toUsize t < 11 → c.stack = [] →
      execute_ix c ⟨.StoreReg, [t]⟩ = .err c (.stackUnderflow .StoreReg)) := by
  refine ⟨?_, ?_, ?_, ?_, ?_⟩
  · intro h
    simp [execute_ix, hlen, h]
  · intro h1 h2
    unfold toUsize; omega
  · intro h1 h2
    unfold toUsize; omega
  · intro h v rest hs
    simp [execute_ix, hlen, h, hs, Nat.not_le.mpr h]
  · intro h hs
    simp [execute_ix, hlen, h, hs, Nat.not_le.mpr h]

/-- Witness for `storeReg_bounds_checked_before_pop`: register index 99 on a
context with one stack entry fails with InvalidRegisterIndex 99 and the
context (stack included) is returned unchanged. -/
theorem storeReg_bounds_checked_before_pop_witness :
    execute_ix { pc := 0, stack := [7], call_stack := [],
                 registers := List.replicate 11 0, memory := [], program := [] }
        ⟨.StoreReg, [99]⟩ =
      .err { pc := 0, stack := [7], call_stack := [],
             registers := List.replicate 11 0, memory := [], program := [] }
        (.invalidRegisterIndex (toUsize 99)) := by
  have h := storeReg_bounds_checked_before_pop
    { pc := 0, stack := [7], call_stack := [], registers := List.replicate 11 0,
      memory := [], program := [] }
    99 (by decide)
  exact h.1 (by decide)

/-- Claim C6: `Add`, `Sub` and `Mul` apply one uniform overflow policy for
every operand pair: the result is the two's-complement wrap `wrapI64` of the
exact integer result — the same total function for all three opcodes —
which is congruent to the exact result modulo `2^64` and always lies in the
`i64` range, so overflow is never an error, a crash, or an inconsistent
wrap.  (This embeds Rust's defined wrapping semantics for `i64` arithmetic
with overflow checks disabled, the release-profile behaviour.) -/
theorem arith_wraps_uniformly (c : Context) (a b : Int) (rest : List Int)
    (h : c.stack = b :: a :: rest) :
    execute_ix c ⟨.Add, []⟩ =
      .ok { c with stack := wrapI64 (a + b) :: rest, pc := c.pc + 1 } ∧
    execute_ix c ⟨.Sub, []⟩ =
      .ok { c with stack := wrapI64 (a - b) :: rest, pc := c.pc + 1 } ∧
    execute_ix c ⟨.Mul, []⟩ =
      .ok { c with stack := wrapI64 (a * b) :: rest, pc := c.pc + 1 } ∧
    (∀ x : Int, wrapI64 x % 18446744073709551616 = x % 18446744073709551616 ∧
      -9223372036854775808 ≤ wrapI64 x ∧ wrapI64 x < 9223372036854775808) := by
  refine ⟨by simp [execute_ix, h], by simp [execute_ix, h], by simp [execute_ix, h], ?_⟩
  intro x
  unfold wrapI64
  omega

/-- Witness for `arith_wraps_uniformly`: on stack `[3, 4]` (top `3`), `Add`
pushes `wrapI64 (4 + 3)`. -/
theorem arith_wraps_uniformly_witness :
    execute_ix { pc := 0, stack := [3, 4], call_stack := [], registers := [],
                 memory := [], program := [] } ⟨.Add, []⟩ =
      .ok { pc := 1, stack := [7], call_stack := [], registers := [],
            memory := [], program := [] } := by
  have h := arith_wraps_uniformly
    { pc := 0, stack := [3, 4], call_stack := [], registers := [], memory := [], program := [] }
    4 3 [] rfl
  exact h.1

/-- Claim C7: `Call` at index `call_pc` (any valid target, the inclusive
bound `target ≤ N` included) pushes the return address `call_pc + 1` onto
the call stack; a later `Return` executed with that saved address on top of
the call stack resumes at exactly `call_pc + 1`; `Return` on an empty call
stack fails with CallStackUnderflow. -/
theorem call_return_roundtrip (c : Context) (t : Int) (call_pc : Nat) (rest : List Nat)
    (hN : c.program.length < 9223372036854775808) :
    (0 ≤ t → t ≤ (c.program.length : Int) → c.pc = call_pc →
      execute_ix c ⟨.Call, [t]⟩ =
        .ok { c with call_stack := (call_pc + 1) :: c.call_stack, pc := toUsize t }) ∧
    (c.call_stack = (call_pc + 1) :: rest →
      execute_ix c ⟨.Return, []⟩ = .ok { c with call_stack := rest, pc := call_pc + 1 }) ∧
    (c.call_stack = [] → execute_ix c ⟨.Return, []⟩ = .err c .callStackUnderflow) := by
  refine ⟨?_, ?_, ?_⟩
  · intro h0 h1 hpc
    subst hpc
    have hb : ¬ (c.program.length < toUsize t) := by unfold toUsize; omega
    simp [execute_ix, hb]
  · intro h
    simp [execute_ix, h]
  · intro h
    simp [execute_ix, h]

/-- Witness for `call_return_roundtrip`: on a one-instruction program,
`Call 1` with target `1 = N` (the inclusive bound) succeeds, pushing return
address `1` and setting `pc` to `toUsize 1`. -/
theorem call_return_roundtrip_witness :
    execute_ix { pc := 0, stack := [], call_stack := [], registers := [],
                 memory := [], program := [⟨.Call, [1]⟩] } ⟨.Call, [1]⟩ =
      .ok { pc := toUsize 1, stack := [], call_stack := [1], registers := [],
            memory := [], program := [⟨.Call, [1]⟩] } := by
  have h := call_return_roundtrip
    { pc := 0, stack := [], call_stack := [], registers := [], memory := [],
      program := [⟨.Call, [1]⟩] }
    1 0 [] (by decide)
  exact h.1 (by decide) (by decide) rfl

/-- Claim C3: `Call` accepts any target in `0..N` inclusive — `target = N`
succeeds, pushing `pc + 1` and setting `pc := N` — and fails only for
`target > N`, a negative operand (whose wrapping `usize` cast lands above
`N`), or a missing operand; `Jump` instead fails for every target not
strictly below `N` (so `target = N` included) and succeeds below `N`. -/
theorem call_inclusive_jump_strict_bounds (c : Context) (t : Int)
    (hN : c.program.length < 9223372036854775808) :
    (0 ≤ t → t ≤ (c.program.length : Int) →
      execute_ix c ⟨.Call, [t]⟩ =
        .ok { c with call_stack := (c.pc + 1) :: c.call_stack, pc := toUsize t }) ∧
    ((c.program.length : Int) < t → t < 9223372036854775808 →
      execute_ix c ⟨.Call, [t]⟩ = .err c (.functionAddrOutOfBounds (toUsize t))) ∧
    (-9223372036854775808 ≤ t → t < 0 →
      execute_ix c ⟨.Call, [t]⟩ = .err c (.functionAddrOutOfBounds (toUsize t))) ∧
    (execute_ix c ⟨.Call, []⟩ = .err c (.missingOperand .Call)) ∧
    ((c.program.length : Int) ≤ t → t < 9223372036854775808 →
      execute_ix c ⟨.Jump, [t]⟩ = .err c (.jumpTargetOutOfBounds (toUsize t))) ∧
    (-9223372036854775808 ≤ t → t < 0 →
      execute_ix c ⟨.Jump, [t]⟩ = .err c (.jumpTargetOutOfBounds (toUsize t))) ∧
    (0 ≤ t → t < (c.program.length : Int) →
      execute_ix c ⟨.Jump, [t]⟩ = .ok { c with pc := toUsize t }) := by
  refine ⟨?_, ?_, ?_, ?_, ?_, ?_, ?_⟩
  · intro h0 h1
    have hb : ¬ (c.program.length < toUsize t) := by unfold toUsize; omega
    simp [execute_ix, hb]
  · intro h0 h1
    have hb : c.program.length < toUsize t := by unfold toUsize; omega
    simp [execute_ix, hb]
  · intro h0 h1
    have hb : c.program.length < toUsize t := by unfold toUsize; omega
    simp [execute_ix, hb]
  · simp [execute_ix]
  · intro h0 h1
    have hb : c.program.length ≤ toUsize t := by unfold toUsize; omega
    simp [execute_ix, hb]
  · intro h0 h1
    have hb : c.program.length ≤ toUsize t := by unfold toUsize; omega
    simp [execute_ix, hb]
  · intro h0 h1
    have hb : ¬ (c.program.length ≤ toUsize t) := by unfold toUsize; omega
    simp [execute_ix, hb]

/-- Witness for `call_inclusive_jump_strict_bounds` on a one-instruction
program: `Call 1` (target `= N`) succeeds while `Jump 1` fails with the
out-of-bounds error. -/
theorem call_inclusive_jump_strict_bounds_witness :
    execute_ix { pc := 0, stack := [], call_stack := [], registers := [],
                 memory := [], program := [⟨.Jump, [1]⟩] } ⟨.Call, [1]⟩ =
      .ok { pc := toUsize 1, stack := [], call_stack := [1], registers := [],
            memory := [], program := [⟨.Jump, [1]⟩] } ∧
    execute_ix { pc := 0, stack := [], call_stack := [], registers := [],
                 memory := [], program := [⟨.Jump, [1]⟩] } ⟨.Jump, [1]⟩ =
      .err { pc := 0, stack := [], call_stack := [], registers := [],
             memory := [], program := [⟨.Jump, [1]⟩] }
        (.jumpTargetOutOfBounds (toUsize 1)) := by
  have h := call_inclusive_jump_strict_bounds
    { pc := 0, stack := [], call_stack := [], registers := [], memory := [],
      program := [⟨.Jump, [1]⟩] }
    1 (by decide)
  exact ⟨h.1 (by decide) (by decide), h.2.2.2.2.1 (by decide) (by decide)⟩

/-- Claim C8: from any state (with the register file's fixed width 11),
`Push v; StoreReg r; LoadReg r` with a valid index `r ∈ 0..10` leaves `v`
on top of the operand stack and stores `v` in register `r`; for every
operand outside `0..10` — negative operands included, via the wrapping
`usize` cast — both `StoreReg` and `LoadReg` fail with
InvalidRegisterIndex. -/
theorem reg_roundtrip_and_bounds (c : Context) (v r : Int)
    (hlen : c.registers.length = 11) :
    (0 ≤ r → r < 11 →
      execSeq c [⟨.Push, [v]⟩, ⟨.StoreReg, [r]⟩, ⟨.LoadReg, [r]⟩] =
        .ok { c with stack := v :: c.stack,
                     registers := c.registers.set (toUsize r) v,
                     pc := c.pc + 3 } ∧
      (c.registers.set (toUsize r) v).getD (toUsize r) 0 = v) ∧
    (11 ≤ toUsize r →
      execute_ix c ⟨.StoreReg, [r]⟩ = .err c (.invalidRegisterIndex (toUsize r)) ∧
      execute_ix c ⟨.LoadReg, [r]⟩ = .err c (.invalidRegisterIndex (toUsize r))) ∧
    (-9223372036854775808 ≤ r → r < 0 → 11 ≤ toUsize r) := by
  refine ⟨?_, ?_, ?_⟩
  · intro h0 h1
    have hu : toUsize r < 11 := by unfold toUsize; omega
    have h2 : toUsize r < c.registers.length := by omega
    have hg : (c.registers.set (toUsize r) v).getD (toUsize r) 0 = v := by
      simp [List.getD_eq_getElem?_getD, List.getElem?_set_self', h2]
    refine ⟨?_, hg⟩
    simp [execSeq, execute_ix, hlen, Nat.not_le.mpr hu,
      List.getD_eq_getElem?_getD, List.getElem?_set_self']
    rw [List.getElem?_eq_getElem h2]
    simp [Function.const]
  · intro h
    constructor <;> simp [execute_ix, hlen, h]
  · intro h0 h1
    unfold toUsize; omega

/-- Witness for `reg_roundtrip_and_bounds`: `Push 42; StoreReg 3; LoadReg 3`
from a fresh register file leaves 42 on top and in register 3. -/
theorem reg_roundtrip_and_bounds_witness :
    execSeq { pc := 0, stack := [], call_stack := [],
              registers := List.replicate 11 0, memory := [], program := [] }
        [⟨.Push, [42]⟩, ⟨.StoreReg, [3]⟩, ⟨.LoadReg, [3]⟩] =
      .ok { pc := 3, stack := [42], call_stack := [],
            registers := (List.replicate 11 0).set (toUsize 3) 42,
            memory := [], program := [] } ∧
    ((List.replicate 11 (0 : Int)).set (toUsize 3) 42).getD (toUsize 3) 0 = 42 := by
  have h := reg_roundtrip_and_bounds
    { pc := 0, stack := [], call_stack := [], registers := List.replicate 11 0,
      memory := [], program := [] }
    42 3 (by decide)
  exact h.1 (by decide) (by decide)

/-- Claim C9: `Push v; Store addr; Load addr` from any state leaves `v` on
top of the operand stack (the freshly inserted binding shadows — i.e.
overwrites — any earlier binding of the same address, since `memGet` reads
the most recent insertion); and `Load` of an address never written reads the
default 0. -/
theorem mem_roundtrip_default_zero (c : Context) (v addr : Int) :
    (execSeq c [⟨.Push, [v]⟩, ⟨.Store, [addr]⟩, ⟨.Load, [addr]⟩] =
      .ok { c with stack := v :: c.stack,
                   memory := (toUsize addr, v) :: c.memory,
                   pc := c.pc + 3 }) ∧
    (∀ m : List (Nat × Int), memGet ((toUsize addr, v) :: m) (toUsize addr) = v) ∧
    (c.memory.lookup (toUsize addr) = none →
      execute_ix c ⟨.Load, [addr]⟩ =
        .ok { c with stack := 0 :: c.stack, pc := c.pc + 1 }) := by
  refine ⟨?_, ?_, ?_⟩
  · simp [execSeq, execute_ix, memGet]
  · intro m
    simp [memGet]
  · intro h
    simp [execute_ix, memGet, h]

/-- Witness for `mem_roundtrip_default_zero`: from an empty memory,
`Push 9; Store 100; Load 100` yields 9 on top, and a bare `Load 100` on the
never-written address 100 pushes 0. -/
theorem mem_roundtrip_default_zero_witness :
    (execSeq { pc := 0, stack := [], call_stack := [], registers := [],
               memory := [], program := [] }
        [⟨.Push, [9]⟩, ⟨.Store, [100]⟩, ⟨.Load, [100]⟩] =
      .ok { pc := 3, stack := [9], call_stack := [], registers := [],
            memory := [(toUsize 100, 9)], program := [] }) ∧
    (execute_ix { pc := 0, stack := [], call_stack := [], registers := [],
                  memory := [], program := [] } ⟨.Load, [100]⟩ =
      .ok { pc := 1, stack := [0], call_stack := [], registers := [],
            memory := [], program := [] }) := by
  have h := mem_roundtrip_default_zero
    { pc := 0, stack := [], call_stack := [], registers := [], memory := [],
      program := [] }
    9 100
  exact ⟨h.1, h.2.2 (by decide)⟩

end Beef
